import Mathlib

/-!
Verification development for the aitril multi-agent coordination engine.

Shallow embedding of the agent coordination and tool-execution core:
`aitril/tools.py` (tool registry, shell tool gate), `aitril/providers.py`
(configuration resolution, the bounded tool-execution loop of
`OpenAIProvider.ask` / `ask_stream`), `aitril/orchestrator.py`
(`AiTril._ask_parallel`, `_ask_with_planner`, `ask_tri`) and
`aitril/coordinator.py` (sequential, consensus, debate, specialist
strategies).  Python strings are Lean `String`s; Python exceptions are
`Except String` values; async calls are modelled as functions, with an
explicit event-trace model where the claims concern scheduling order.
-/

namespace Aitril

/-- Single-quote character, used to build the exact message texts of the
source without an apostrophe appearing in a Lean string literal. -/
def sq : String := String.singleton (Char.ofNat 39)

/-- Python slicing `s[:n]` on a `str`: the first `n` code points. -/
def pySlice (s : String) (n : Nat) : String := String.mk (s.data.take n)

/-- Python `sep.join(parts)`: the parts concatenated with `sep` between
consecutive parts. -/
def joinSep (sep : String) : List String → String
  | [] => ""
  | [x] => x
  | x :: y :: xs => x ++ sep ++ joinSep sep (y :: xs)

/-- Substring occurrence: `Occurs a b` holds when the character list `a`
appears contiguously inside `b`. -/
def Occurs (a b : List Char) : Prop := ∃ pre post, b = pre ++ a ++ post

/-- Substring occurrence on strings, via their character data. -/
def strOccurs (a b : String) : Prop := Occurs a.data b.data

theorem occurs_self (a : List Char) : Occurs a a :=
  ⟨[], [], by simp⟩

theorem occurs_append_left {a b : List Char} (c : List Char) (h : Occurs a b) :
    Occurs a (c ++ b) := by
  obtain ⟨pre, post, rfl⟩ := h
  exact ⟨c ++ pre, post, by simp⟩

theorem occurs_append_right {a b : List Char} (c : List Char) (h : Occurs a b) :
    Occurs a (b ++ c) := by
  obtain ⟨pre, post, rfl⟩ := h
  exact ⟨pre, post ++ c, by simp⟩

theorem occurs_trans {a b c : List Char} (h1 : Occurs a b) (h2 : Occurs b c) :
    Occurs a c := by
  obtain ⟨p1, q1, rfl⟩ := h1
  obtain ⟨p2, q2, rfl⟩ := h2
  exact ⟨p2 ++ p1, q1 ++ q2, by simp⟩

theorem occurs_length_le {a b : List Char} (h : Occurs a b) :
    a.length ≤ b.length := by
  obtain ⟨pre, post, rfl⟩ := h
  simp; omega

theorem strOccurs_append_left {a b : String} (c : String) (h : strOccurs a b) :
    strOccurs a (c ++ b) := by
  unfold strOccurs at *
  rw [String.data_append]
  exact occurs_append_left c.data h

theorem strOccurs_append_right {a b : String} (c : String) (h : strOccurs a b) :
    strOccurs a (b ++ c) := by
  unfold strOccurs at *
  rw [String.data_append]
  exact occurs_append_right c.data h

theorem strOccurs_self (a : String) : strOccurs a a := occurs_self a.data

theorem strOccurs_trans {a b c : String} (h1 : strOccurs a b) (h2 : strOccurs b c) :
    strOccurs a c := occurs_trans h1 h2

/-- Every member of a joined list occurs as a substring of the join. -/
theorem strOccurs_joinSep (sep : String) :
    ∀ (l : List String) (a : String), a ∈ l → strOccurs a (joinSep sep l)
  | [], a, h => by cases h
  | [x], a, h => by
      rcases List.mem_singleton.mp h with rfl
      simpa [joinSep] using strOccurs_self a
  | x :: y :: xs, a, h => by
      rcases List.mem_cons.mp h with rfl | h2
      · show strOccurs a (a ++ sep ++ joinSep sep (y :: xs))
        exact strOccurs_append_right _ (strOccurs_append_right _ (strOccurs_self a))
      · show strOccurs a (x ++ sep ++ joinSep sep (y :: xs))
        exact strOccurs_append_left _ (strOccurs_joinSep sep (y :: xs) a h2)

/-! ## Tool registry (`aitril/tools.py`)

A tool has a name and an execution behaviour.  Real tools perform I/O;
their behaviour is modelled as a function from structured arguments to
either a result string (`Except.ok`) or a raised exception whose message
is the `Except.error` payload.  Arguments are the structured key→value
form the loop obtains from the vendor payload. -/

/-- Structured tool-call arguments (the parsed key→value form). -/
def Args : Type := List (String × String)

instance : DecidableEq Args := inferInstanceAs (DecidableEq (List (String × String)))

/-- A registered tool: name plus execution behaviour (`run` returning
`Except.error e` models `execute` raising an exception with text `e`). -/
structure ToolImpl where
  name : String
  run : Args → Except String String

/-- The tool registry: `ToolRegistry.tools`, keyed by tool name. -/
structure ToolRegistry where
  tools : List ToolImpl

/-- `ToolRegistry.get_tool`: look a tool up by name. -/
def getTool (reg : ToolRegistry) (name : String) : Option ToolImpl :=
  reg.tools.find? (fun t => t.name = name)

/-- `ToolRegistry.execute_tool` (tools.py lines 394-404): total — an
unknown name or a raising tool is converted to an error string. -/
def execute_tool (reg : ToolRegistry) (name : String) (args : Args) : String :=
  match getTool reg name with
  | none => "Error: Tool " ++ sq ++ name ++ sq ++ " not found"
  | some tool =>
    match tool.run args with
    | .ok result => result
    | .error e => "Error executing tool " ++ sq ++ name ++ sq ++ ": " ++ e

/-! ## Shell tool command gate (`ShellTool.execute`, tools.py lines 79-110) -/

/-- The fixed allow-list `ShellTool.allowed_commands`. -/
def allowed_commands : List String :=
  ["curl", "wget", "date", "cal", "uptime", "whoami",
   "pwd", "ls", "cat", "echo", "which", "uname"]

/-- Helper of `pySplitWs`: scan the characters, `acc` holding the
current word reversed; whitespace closes the current word, empty pieces
are discarded. -/
def wordsAux : List Char → List Char → List String
  | [], acc => if acc = [] then [] else [String.mk acc.reverse]
  | c :: rest, acc =>
    if c.isWhitespace then
      if acc = [] then wordsAux rest [] else String.mk acc.reverse :: wordsAux rest []
    else wordsAux rest (c :: acc)

/-- Python `str.split()` with no argument: split on whitespace runs,
discarding empty pieces. -/
def pySplitWs (s : String) : List String :=
  wordsAux s.data []

/-- Python truthiness of `command.strip()`: the stripped string is empty
exactly when every character is whitespace. -/
def pyStripIsEmpty (s : String) : Bool :=
  s.data.all Char.isWhitespace

/-- The base command extracted by `ShellTool.execute`:
`command.split()[0] if command.strip() else ""`. -/
def shellBaseCmd (command : String) : String :=
  if pyStripIsEmpty command then "" else (pySplitWs command).headD ""

/-- Outcome of the safety gate at the top of `ShellTool.execute`: either
the command string is rejected with an error message and no process is
spawned, or the whole command line is handed to the subprocess shell. -/
inductive ShellOutcome
  | rejected (msg : String)
  | spawn (commandLine : String)
  deriving DecidableEq

/-- The safety-check portion of `ShellTool.execute`: extract the base
command and reject unless it is on the allow-list; otherwise spawn the
command line (the subprocess itself is external I/O). -/
def shellToolDecision (command : String) : ShellOutcome :=
  let base := shellBaseCmd command
  if base ∈ allowed_commands then
    .spawn command
  else
    .rejected ("Error: Command " ++ sq ++ base ++ sq ++ " not allowed. Allowed commands: "
      ++ joinSep ", " allowed_commands)

/-! ## Provider configuration resolution (`providers.py` lines 53-102)

Configuration and environment lookups return `Option String` (`none`
models a missing key).  Python truthiness on these values: `None` and
the empty string are falsy. -/

/-- Python truthiness of an optional string (`not model` in the source). -/
def pyTruthyS : Option String → Bool
  | none => false
  | some s => s ≠ ""

/-- `Provider._get_model`: config value, else environment variable, else
the hard-coded per-adapter default. -/
def get_model (cfg env : Option String) (dflt : String) : String :=
  if pyTruthyS cfg then cfg.getD "" else
  if pyTruthyS env then env.getD "" else dflt

/-- `Provider._get_api_key`: config value, else environment variable; a
still-absent key raises `ValueError` when the adapter requires one. -/
def get_api_key (cfg env : Option String) (requiresKey : Bool) (clsName envName : String) :
    Except String (Option String) :=
  let apiKey := if pyTruthyS cfg then cfg else env
  if !pyTruthyS apiKey && requiresKey then
    .error ("No API key found for " ++ clsName ++ ". Set " ++ envName
      ++ " environment variable or configure via " ++ sq ++ "aitril init" ++ sq ++ ".")
  else
    .ok apiKey

/-- `Provider._requires_api_key` for the abstract base class. -/
def Provider_requires_api_key : Bool := true

/-- `OllamaProvider._requires_api_key` (providers.py line 727-728). -/
def OllamaProvider_requires_api_key : Bool := false

/-- `LlamaCppProvider._requires_api_key` (providers.py line 803-804). -/
def LlamaCppProvider_requires_api_key : Bool := false

/-- `Provider.__init__` computes `self.api_key` and `self.model` once at
construction: the resolved pair, or the construction error. -/
def mkProviderState (cfgModel envModel : Option String) (dfltModel : String)
    (cfgKey envKey : Option String) (requiresKey : Bool) (clsName envName : String) :
    Except String (String × Option String) :=
  match get_api_key cfgKey envKey requiresKey clsName envName with
  | .error e => .error e
  | .ok k => .ok (get_model cfgModel envModel dfltModel, k)

/-! ## The tool-execution loop (`OpenAIProvider.ask`, providers.py 143-208)

The model behaviour is a function from the conversation so far to the
next model message (content plus requested tool calls).  The
`arguments` field carries the structured key→value form that
`json.loads` produces from the wire payload. -/

/-- A requested tool invocation inside a model message. -/
structure ToolCallE where
  id : String
  name : String
  arguments : Args
  deriving DecidableEq

/-- Conversation roles. -/
inductive Role
  | user
  | assistant
  | tool
  deriving DecidableEq

/-- One turn of the conversation (`messages` list entries). -/
structure ChatMessage where
  role : Role
  content : Option String
  tool_calls : List ToolCallE
  tool_call_id : Option String

/-- The model message of one round (`response.choices[0].message`). -/
structure ModelMessage where
  content : Option String
  tool_calls : List ToolCallE

/-- A model behaviour: conversation so far to next model message. -/
def Behavior : Type := List ChatMessage → ModelMessage

/-- The initial user turn. -/
def userMessage (prompt : String) : ChatMessage :=
  { role := .user, content := some prompt, tool_calls := [], tool_call_id := none }

/-- The assistant turn appended after a tool-calling model message. -/
def assistantMessage (m : ModelMessage) : ChatMessage :=
  { role := .assistant, content := m.content, tool_calls := m.tool_calls, tool_call_id := none }

/-- The tool-role turns appended after executing the requested calls:
one per call, in emission order, content = registry execution result. -/
def toolResultMessages (reg : ToolRegistry) (tcs : List ToolCallE) : List ChatMessage :=
  tcs.map (fun tc =>
    { role := .tool, content := some (execute_tool reg tc.name tc.arguments),
      tool_calls := [], tool_call_id := some tc.id })

/-- One extension of the conversation by a tool round. -/
def convStep (behavior : Behavior) (reg : ToolRegistry) (messages : List ChatMessage) :
    List ChatMessage :=
  let m := behavior messages
  messages ++ [assistantMessage m] ++ toolResultMessages reg m.tool_calls

/-- Iterated conversation extension. -/
def convIter (behavior : Behavior) (reg : ToolRegistry) :
    Nat → List ChatMessage → List ChatMessage
  | 0, messages => messages
  | n + 1, messages => convIter behavior reg n (convStep behavior reg messages)

/-- The body of the bounded loop of `OpenAIProvider.ask`, with remaining
fuel in place of the `range(max_iterations)` counter and `last` carrying
the previous round message content (the `message` variable that survives
the loop).  Besides the returned text, the number of model rounds
actually executed is returned, so round counts can be stated. -/
def openaiAskAux (behavior : Behavior) (reg : ToolRegistry) :
    Nat → List ChatMessage → Option String → String × Nat
  | 0, _messages, last => (last.getD "", 0)
  | n + 1, messages, _last =>
    let message := behavior messages
    if message.tool_calls = [] then
      (message.content.getD "", 1)
    else
      let r := openaiAskAux behavior reg n (convStep behavior reg messages) message.content
      (r.1, r.2 + 1)

/-- `OpenAIProvider.ask`: the loop with `max_iterations = 5`, seeded
with the user prompt. -/
def openaiAsk (behavior : Behavior) (reg : ToolRegistry) (prompt : String) : String × Nat :=
  openaiAskAux behavior reg 5 [userMessage prompt] none

/-! ## The streaming loop (`OpenAIProvider.ask_stream`, providers.py 210-319)

A streamed round delivers text fragments and (reassembled) tool calls;
the generator is modelled as the list of yielded chunks.  `dumps`
abstracts `json.dumps` on the structured arguments. -/

/-- The response of one streamed round, after delta reassembly. -/
structure StreamModelResp where
  content_parts : List String
  tool_calls : List ToolCallE

/-- A streaming model behaviour. -/
def StreamBehavior : Type := List ChatMessage → StreamModelResp

/-- The sentinel chunk yielded when the iteration ceiling is hit. -/
def maxIterSentinel : String := "\n(Maximum tool iterations reached)\n"

/-- The assistant turn the streaming loop appends (content is the joined
parts, or `None` when no text arrived). -/
def assistantStreamMessage (r : StreamModelResp) : ChatMessage :=
  { role := .assistant,
    content := if r.content_parts = [] then none else some (joinSep "" r.content_parts),
    tool_calls := r.tool_calls, tool_call_id := none }

/-- The chunks yielded while executing the accumulated tool calls:
execution indicator, arguments, and result, per call. -/
def toolYieldChunks (reg : ToolRegistry) (dumps : Args → String) (tcs : List ToolCallE) :
    List String :=
  tcs.flatMap (fun tc =>
    ["\n\n🔧 **Executing tool:** `" ++ tc.name ++ "`\n",
     "**Arguments:** " ++ dumps tc.arguments ++ "\n",
     "**Result:**\n```\n" ++ execute_tool reg tc.name tc.arguments ++ "\n```\n\n"])

/-- The conversation extension of one streamed tool round. -/
def convStepStream (behavior : StreamBehavior) (reg : ToolRegistry)
    (messages : List ChatMessage) : List ChatMessage :=
  let r := behavior messages
  messages ++ [assistantStreamMessage r] ++ toolResultMessages reg r.tool_calls

/-- The body of the bounded streaming loop: remaining fuel `n + 1`
corresponds to iterations `5 - n - 1 .. 4`; on the final iteration, after
executing the tools, the sentinel is yielded and the loop breaks.
Returns the yielded chunks and the number of model rounds executed. -/
def openaiStreamAux (behavior : StreamBehavior) (reg : ToolRegistry) (dumps : Args → String) :
    Nat → List ChatMessage → List String × Nat
  | 0, _messages => ([], 0)
  | n + 1, messages =>
    let r := behavior messages
    if r.tool_calls = [] then
      (r.content_parts, 1)
    else
      let yielded := r.content_parts ++ toolYieldChunks reg dumps r.tool_calls
      if n = 0 then
        (yielded ++ [maxIterSentinel], 1)
      else
        let rest := openaiStreamAux behavior reg dumps n (convStepStream behavior reg messages)
        (yielded ++ rest.1, rest.2 + 1)

/-- `OpenAIProvider.ask_stream`: the streaming loop with
`max_iterations = 5`, seeded with the user prompt. -/
def openaiAskStream (behavior : StreamBehavior) (reg : ToolRegistry) (dumps : Args → String)
    (prompt : String) : List String × Nat :=
  openaiStreamAux behavior reg dumps 5 [userMessage prompt]

/-! ## Fan-out executor (`AiTril._ask_parallel`, orchestrator.py 232-259)

An agent adapter call is a function from the prompt to either the
response text (`Except.ok`) or a raised exception message
(`Except.error`). -/

/-- An adapter `ask`: prompt to response text or raised exception. -/
def AskFn : Type := String → Except String String

/-- The per-branch wrapper `_query_provider`: a raised exception becomes
an error-tagged string. -/
def tagOutcome : Except String String → String
  | .ok r => r
  | .error e => "ERROR: " ++ e

/-- `AiTril._ask_parallel`: one branch per provider, each isolated by
`tagOutcome`; the gathered results keyed by provider name. -/
def ask_parallel (providers : List (String × AskFn)) (prompt : String) :
    List (String × String) :=
  providers.map (fun pr => (pr.1, tagOutcome (pr.2 prompt)))

/-- Provider lookup by name (`self.providers[planner_name]`). -/
def lookupProvider (providers : List (String × AskFn)) (name : String) : Option AskFn :=
  (providers.find? (fun pr => pr.1 = name)).map (fun pr => pr.2)

/-- The planner prompt of `AiTril._ask_with_planner`. -/
def plannerPrompt (prompt : String) : String :=
  "You are the initial planner for this request. Create a comprehensive plan/design/approach to address the following:\n\n"
  ++ prompt
  ++ "\n\nFocus on:\n1. Overall strategy and architecture\n2. Key components and their relationships\n3. Implementation approach and considerations\n4. Potential challenges and solutions\n\nProvide a clear, structured plan that other agents can build upon and improve."

/-- The builder prompt of `AiTril._ask_with_planner`. -/
def builderPrompt (prompt planner_response : String) : String :=
  "The following is an initial plan created by another AI agent to address a user request.\n\nUSER REQUEST:\n"
  ++ prompt
  ++ "\n\nINITIAL PLAN:\n"
  ++ planner_response
  ++ "\n\nYour role is to:\n1. Analyze and critique the plan\n2. Suggest improvements and optimizations\n3. Identify any gaps or issues\n4. Provide additional implementation details\n5. Offer alternative approaches if beneficial\n\nBuild upon and enhance the initial plan with your unique perspective."

/-- `AiTril._ask_with_planner`: designated planner answers first; on a
planner exception the coordinator degrades to plain parallel; otherwise
the remaining agents run as isolated fan-out branches on the builder
prompt. -/
def ask_with_planner (providers : List (String × AskFn)) (prompt planner_name : String) :
    List (String × String) :=
  match lookupProvider providers planner_name with
  | none => ask_parallel providers prompt
  | some plannerAsk =>
    match plannerAsk (plannerPrompt prompt) with
    | .error _e => ask_parallel providers prompt
    | .ok planner_response =>
      let others := providers.filter (fun pr => pr.1 ≠ planner_name)
      if others.isEmpty then
        [(planner_name, planner_response)]
      else
        (planner_name, planner_response) ::
          others.map (fun pr => (pr.1, tagOutcome (pr.2 (builderPrompt prompt planner_response))))

/-! ## Agent coordinator (`aitril/coordinator.py`)

Strategy runs are instrumented with the prompt actually sent to each
agent, so prompt-construction claims can be stated; the uninstrumented
result is recovered by projection.  Adapter exceptions propagate out of
these strategies exactly as unhandled exceptions do in the source
(`await provider.ask(...)` without a wrapper). -/

/-- One context line of the sequential strategy, with the 500-character
truncation of `resp[:500]`. -/
def ctxLine (name resp : String) : String :=
  if resp.length > 500 then
    "[Context from " ++ name ++ "]: " ++ pySlice resp 500 ++ "..."
  else
    "[Context from " ++ name ++ "]: " ++ resp

/-- The enriched prompt of `coordinate_sequential`: the bare prompt when
no context has accumulated, otherwise prompt plus context block. -/
def enrich (prompt : String) (hist : List (String × String)) : String :=
  if hist.isEmpty then prompt
  else
    prompt ++ "\n\nPrevious agent responses for context:\n"
      ++ joinSep "\n\n" (hist.map (fun h => ctxLine h.1 h.2))
      ++ "\n\nPlease provide your response, building on or complementing the above if relevant."

/-- The loop of `coordinate_sequential`, keeping (name, prompt used,
response) per executed agent; `hist` is `context_history`. -/
def seqGo (prompt : String) : List (String × AskFn) → List (String × String) →
    Except String (List (String × String × String))
  | [], _hist => .ok []
  | p :: rest, hist =>
    let ep := enrich prompt hist
    match p.2 ep with
    | .error e => .error e
    | .ok resp =>
      match seqGo prompt rest (hist ++ [(p.1, resp)]) with
      | .error e => .error e
      | .ok tl => .ok ((p.1, ep, resp) :: tl)

/-- `AgentCoordinator.coordinate_sequential` with the default order (all
providers in map order): the ordered (name, response) pairs. -/
def coordinate_sequential (providers : List (String × AskFn)) (prompt : String) :
    Except String (List (String × String)) :=
  (seqGo prompt providers []).map (fun t => t.map (fun x => (x.1, x.2.2)))

/-- One block of `_build_consensus_prompt`: an agent response in full. -/
def consensusEntry (name response : String) : String :=
  "Response from " ++ name ++ ":\n" ++ response

/-- `AgentCoordinator._build_consensus_prompt` (coordinator.py 386-415). -/
def build_consensus_prompt (original_prompt : String) (responses : List (String × String)) :
    String :=
  "Original question: " ++ original_prompt
  ++ "\n\nMultiple AI agents provided the following responses:\n\n"
  ++ joinSep "\n\n" (responses.map (fun p => consensusEntry p.1 p.2))
  ++ "\n\nPlease provide a synthesized consensus that:\n1. Identifies common themes and agreements\n2. Notes significant disagreements or different perspectives\n3. Provides a balanced, comprehensive answer\n4. Highlights which aspects have strong agreement vs. debate"

/-- `asyncio.gather(*tasks)` without `return_exceptions`: all results
when every task succeeds, otherwise the propagated exception (modelled
deterministically as the leftmost failing task). -/
def gatherAsks : List AskFn → String → Except String (List String)
  | [], _ => .ok []
  | a :: rest, p =>
    match a p with
    | .error e => .error e
    | .ok r => (gatherAsks rest p).map (fun rs => r :: rs)

/-- The result dictionary of `coordinate_consensus`. -/
structure ConsensusResult where
  individual_responses : List (String × String)
  consensus : String
  providers_count : Nat
  min_agreement : Nat

/-- `AgentCoordinator.coordinate_consensus` (coordinator.py 78-119):
gather all providers on the bare prompt, then one synthesis call to the
first provider in iteration order. -/
def coordinate_consensus (providers : List (String × AskFn)) (prompt : String)
    (minAgreement : Nat) : Except String ConsensusResult :=
  match gatherAsks (providers.map Prod.snd) prompt with
  | .error e => .error e
  | .ok rs =>
    let responses := List.zip (providers.map Prod.fst) rs
    let consensus_prompt := build_consensus_prompt prompt responses
    match providers with
    | [] => .error "IndexError: list index out of range"
    | first :: _ =>
      match first.2 consensus_prompt with
      | .error e => .error e
      | .ok consensus =>
        .ok { individual_responses := responses, consensus := consensus,
              providers_count := responses.length, min_agreement := minAgreement }

/-- The previous-round entries included in a debate re-prompt for agent
`me`: every other agent entry, the agent own entry filtered out. -/
def debateCtxEntries (prev : List (String × String)) (me : String) :
    List (String × String) :=
  prev.filter (fun x => x.1 ≠ me)

/-- The round `k > 0` debate prompt for one agent (the ternary of the
source resolves to the refine wording since the round number is
positive on this path). -/
def debatePromptFor (prompt : String) (prev : List (String × String)) (me : String) : String :=
  "Original prompt: " ++ prompt ++ "\n\nOther agents" ++ sq ++ " responses:\n"
  ++ joinSep "\n\n"
      ((debateCtxEntries prev me).map
        (fun x => "[" ++ x.1 ++ sq ++ "s previous response]: " ++ x.2))
  ++ "\n\nPlease refine your position, considering the above perspectives."

/-- The inner loop of one debate round, keeping (name, prompt used,
response) per agent; agents are awaited one after the other. -/
def debateRoundGo (prompt : String) (roundNum : Nat) (prev : List (String × String)) :
    List (String × AskFn) → Except String (List (String × String × String))
  | [] => .ok []
  | p :: rest =>
    let dp := if roundNum > 0 then debatePromptFor prompt prev p.1 else prompt
    match p.2 dp with
    | .error e => .error e
    | .ok resp =>
      (debateRoundGo prompt roundNum prev rest).map (fun tl => (p.1, dp, resp) :: tl)

/-- The outer loop of `coordinate_debate`: rounds executed in order,
each seeing the previous round responses. -/
def debateGoRounds (providers : List (String × AskFn)) (prompt : String) :
    Nat → Nat → List (String × String) →
    Except String (List (List (String × String × String)))
  | 0, _roundNum, _prev => .ok []
  | f + 1, roundNum, prev =>
    match debateRoundGo prompt roundNum prev providers with
    | .error e => .error e
    | .ok r =>
      (debateGoRounds providers prompt f (roundNum + 1) (r.map (fun x => (x.1, x.2.2)))).map
        (fun tl => r :: tl)

/-- `AgentCoordinator.coordinate_debate` (coordinator.py 121-178). -/
def coordinate_debate (providers : List (String × AskFn)) (prompt : String) (rounds : Nat) :
    Except String (List (List (String × String × String))) :=
  debateGoRounds providers prompt rounds 0 []

/-- The role assigned to an agent in `coordinate_specialist`:
`roles.get(provider_name, "general assistant")`. -/
def lookupRole (roles : List (String × String)) (name : String) : String :=
  ((roles.find? (fun x => x.1 = name)).map Prod.snd).getD "general assistant"

/-- The role-flavoured prompt of `coordinate_specialist`. -/
def rolePrompt (role prompt : String) : String :=
  "You are acting as a " ++ role
  ++ ". Approach the following from that specific perspective:\n\n" ++ prompt

/-! ## Scheduling traces

To settle the concurrency-shape claims, strategy loops are also modelled
as event traces over atomic adapter calls: `call` when an agent request
is issued, `ret` when it completes.  Response functions here are the
successful-path adapters (`String → String`). -/

/-- A scheduling event: an agent call is issued, or completes. -/
inductive CallEvent
  | call (agent : String) (prompt : String)
  | ret (agent : String) (response : String)
  deriving DecidableEq

/-- Trace of `coordinate_specialist` (coordinator.py 180-212): the loop
body awaits each `provider.ask(role_prompt)` to completion before the
next iteration starts, so each agent contributes an adjacent
call/return pair. -/
def specialistTrace (providers : List (String × (String → String)))
    (roles : List (String × String)) (prompt : String) : List CallEvent :=
  providers.flatMap (fun pr =>
    let rp := rolePrompt (lookupRole roles pr.1) prompt
    [CallEvent.call pr.1 rp, CallEvent.ret pr.1 (pr.2 rp)])

/-- Trace of one round of `coordinate_debate` (coordinator.py 146-176):
the inner loop likewise awaits each agent to completion in turn. -/
def debateRoundTrace (providers : List (String × (String → String)))
    (prompt : String) (roundNum : Nat) (prev : List (String × String)) : List CallEvent :=
  providers.flatMap (fun pr =>
    let dp := if roundNum > 0 then debatePromptFor prompt prev pr.1 else prompt
    [CallEvent.call pr.1 dp, CallEvent.ret pr.1 (pr.2 dp)])

/-- Trace of the fan-out executor `_ask_parallel`: `asyncio.gather`
launches one task per agent, so every agent request is in flight before
any result is collected. -/
def parallelTrace (providers : List (String × (String → String))) (prompt : String) :
    List CallEvent :=
  providers.map (fun pr => CallEvent.call pr.1 prompt)
    ++ providers.map (fun pr => CallEvent.ret pr.1 (pr.2 prompt))

/-- Running count of in-flight agent calls after each event. -/
def outstandingSteps : List CallEvent → Nat → List Nat
  | [], _cur => []
  | e :: rest, cur =>
    let cur2 := match e with
      | .call _ _ => cur + 1
      | .ret _ _ => cur - 1
    cur2 :: outstandingSteps rest cur2

/-- The peak number of simultaneously in-flight agent calls of a trace. -/
def maxOutstanding (t : List CallEvent) : Nat :=
  (outstandingSteps t 0).foldr Nat.max 0

/-! ## Coordinator entry point (`AiTril.ask_tri`, orchestrator.py 109-149) -/

/-- The strategy-specific result shapes of `ask_tri`. -/
inductive StrategyResult
  | parallelR (responses : List (String × String))
  | sequentialR (responses : List (String × String))
  | consensusR (r : ConsensusResult)
  | debateR (rounds : List (List (String × String × String)))

/-- `AiTril.ask_tri`: fatal `ValueError` when no providers are enabled,
otherwise dispatch on planner mode and strategy (unknown strategies fall
back to parallel; the debate and consensus defaults are 2). -/
def ask_tri (providers : List (String × AskFn)) (prompt strategy initial_planner : String) :
    Except String StrategyResult :=
  if providers.isEmpty then
    .error ("No providers enabled. Run " ++ sq ++ "aitril init" ++ sq
      ++ " to configure providers.")
  else if initial_planner != "none" && providers.any (fun pr => pr.1 == initial_planner) then
    .ok (.parallelR (ask_with_planner providers prompt initial_planner))
  else if strategy == "parallel" then
    .ok (.parallelR (ask_parallel providers prompt))
  else if strategy == "sequential" then
    (coordinate_sequential providers prompt).map .sequentialR
  else if strategy == "consensus" then
    (coordinate_consensus providers prompt 2).map .consensusR
  else if strategy == "debate" then
    (coordinate_debate providers prompt 2).map .debateR
  else
    .ok (.parallelR (ask_parallel providers prompt))

/-! ## Concrete fixtures used by witnesses and counterexamples -/

/-- A provider whose ask always succeeds with response `ra`. -/
def okA : AskFn := fun _ => Except.ok "ra"

/-- A provider whose ask always succeeds with response `rc`. -/
def okC : AskFn := fun _ => Except.ok "rc"

/-- A provider whose ask always raises with message `boom`. -/
def errB : AskFn := fun _ => Except.error "boom"

/-! ## C1 -/

/-- C1: the Parallel strategy returns exactly one entry per agent, keyed
like the provider map; splitting the provider list around any one agent
shows that agent's outcome occupies exactly its own slot — as the real
response on success and as the `ERROR:`-tagged exception text on a
raise — while every other agent's entry is exactly what it would be
without that agent. -/
theorem C1_parallel_one_entry_per_agent :
    ∀ (providers : List (String × AskFn)) (prompt : String),
      ((ask_parallel providers prompt).map Prod.fst = providers.map Prod.fst) ∧
      (∀ pre pr post, providers = pre ++ pr :: post →
        ask_parallel providers prompt
          = ask_parallel pre prompt
            ++ (pr.1, tagOutcome (pr.2 prompt)) :: ask_parallel post prompt) ∧
      (∀ (x : Except String String) r, x = Except.ok r → tagOutcome x = r) ∧
      (∀ (x : Except String String) e, x = Except.error e → tagOutcome x = "ERROR: " ++ e) := by
  intro providers prompt
  refine ⟨?_, ?_, ?_, ?_⟩
  · simp [ask_parallel]
  · intro pre pr post h
    subst h
    simp [ask_parallel]
  · intro x r h
    subst h
    rfl
  · intro x e h
    subst h
    rfl

/-- Witness for C1 at a concrete 3-agent set where agent B throws: the
result has all 3 entries, B isolated as an error tag. -/
theorem C1_witness :
    ask_parallel [("A", okA), ("B", errB), ("C", okC)] "q"
      = ask_parallel [("A", okA)] "q"
        ++ ("B", tagOutcome (errB "q")) :: ask_parallel [("C", okC)] "q" :=
  (C1_parallel_one_entry_per_agent [("A", okA), ("B", errB), ("C", okC)] "q").2.1
    [("A", okA)] ("B", errB) [("C", okC)] rfl

/-! ## C8 -/

/-- C8: model and credential resolution follows config > environment >
default; after resolution an absent credential is a construction error
exactly when the adapter requires one; the local adapters declare they
do not; and `Provider.__init__` computes the pair once, as a pure
function of configuration and environment. -/
theorem C8_config_resolution :
    ∀ (cfgM envM : Option String) (dfltM : String) (cfgK envK : Option String)
      (clsName envName : String),
      (pyTruthyS cfgM = true → get_model cfgM envM dfltM = cfgM.getD "") ∧
      (pyTruthyS cfgM = false → pyTruthyS envM = true → get_model cfgM envM dfltM = envM.getD "") ∧
      (pyTruthyS cfgM = false → pyTruthyS envM = false → get_model cfgM envM dfltM = dfltM) ∧
      (pyTruthyS cfgK = true →
        get_api_key cfgK envK true clsName envName = .ok cfgK) ∧
      (pyTruthyS cfgK = false → pyTruthyS envK = true →
        get_api_key cfgK envK true clsName envName = .ok envK) ∧
      (pyTruthyS cfgK = false → pyTruthyS envK = false →
        get_api_key cfgK envK true clsName envName
          = .error ("No API key found for " ++ clsName ++ ". Set " ++ envName
              ++ " environment variable or configure via " ++ sq ++ "aitril init" ++ sq ++ ".")) ∧
      (∀ req, req = false → ∃ v, get_api_key cfgK envK req clsName envName = .ok v) ∧
      (OllamaProvider_requires_api_key = false ∧ LlamaCppProvider_requires_api_key = false
        ∧ Provider_requires_api_key = true) ∧
      (∀ req k, get_api_key cfgK envK req clsName envName = .ok k →
        mkProviderState cfgM envM dfltM cfgK envK req clsName envName
          = .ok (get_model cfgM envM dfltM, k)) := by
  intro cfgM envM dfltM cfgK envK clsName envName
  refine ⟨?_, ?_, ?_, ?_, ?_, ?_, ?_, ⟨rfl, rfl, rfl⟩, ?_⟩
  · intro h; simp [get_model, h]
  · intro h1 h2; simp [get_model, h1, h2]
  · intro h1 h2; simp [get_model, h1, h2]
  · intro h; simp [get_api_key, h]
  · intro h1 h2; simp [get_api_key, h1, h2]
  · intro h1 h2; simp [get_api_key, h1, h2]
  · intro req h
    subst h
    refine ⟨if pyTruthyS cfgK then cfgK else envK, ?_⟩
    simp [get_api_key]
  · intro req k h
    simp [mkProviderState, h]

/-- Witness for C8 at concrete inputs: a config-provided model wins over
environment and default, and a key-less local adapter resolution
succeeds with no credential at all. -/
theorem C8_witness :
    get_model (some "gpt-x") (some "env-model") "gpt-4o" = "gpt-x" ∧
    (∃ v, get_api_key none none OllamaProvider_requires_api_key "OllamaProvider" "OLLAMA_API_KEY"
        = .ok v) :=
  ⟨(C8_config_resolution (some "gpt-x") (some "env-model") "gpt-4o" none none
      "OllamaProvider" "OLLAMA_API_KEY").1 (by decide),
   (C8_config_resolution (some "gpt-x") (some "env-model") "gpt-4o" none none
      "OllamaProvider" "OLLAMA_API_KEY").2.2.2.2.2.2.1 OllamaProvider_requires_api_key rfl⟩

/-! ## C10 -/

/-- C10: the shell tool spawns a process only for command strings whose
first whitespace-separated word is on the fixed allow-list; any other
command string — the empty and all-whitespace ones included, whose base
command is the empty word — is answered with an error string and no
spawn. -/
theorem C10_shell_allowlist :
    ∀ command : String,
      (∀ c, shellToolDecision command = .spawn c →
        c = command ∧ shellBaseCmd command ∈ allowed_commands) ∧
      (shellBaseCmd command ∉ allowed_commands →
        shellToolDecision command
          = .rejected ("Error: Command " ++ sq ++ shellBaseCmd command ++ sq
              ++ " not allowed. Allowed commands: " ++ joinSep ", " allowed_commands)) ∧
      (pyStripIsEmpty command = true →
        shellBaseCmd command = "" ∧ ∀ c, shellToolDecision command ≠ .spawn c) := by
  intro command
  have hdec : ∀ c, shellToolDecision command = .spawn c →
      c = command ∧ shellBaseCmd command ∈ allowed_commands := by
    intro c h
    unfold shellToolDecision at h
    by_cases hb : shellBaseCmd command ∈ allowed_commands
    · rw [if_pos hb] at h
      cases h
      exact ⟨rfl, hb⟩
    · rw [if_neg hb] at h
      cases h
  refine ⟨hdec, ?_, ?_⟩
  · intro hb
    unfold shellToolDecision
    rw [if_neg hb]
  · intro htrim
    have hbase : shellBaseCmd command = "" := by
      unfold shellBaseCmd
      rw [if_pos htrim]
    refine ⟨hbase, ?_⟩
    intro c h
    rcases hdec c h with ⟨_, hmem⟩
    rw [hbase] at hmem
    exact absurd hmem (by decide)

/-- Witness for C10: `rm -rf x` is rejected without a spawn, and the
empty command cannot spawn. -/
theorem C10_witness :
    shellToolDecision "rm -rf x"
      = .rejected ("Error: Command " ++ sq ++ shellBaseCmd "rm -rf x" ++ sq
          ++ " not allowed. Allowed commands: " ++ joinSep ", " allowed_commands) ∧
    ∀ c, shellToolDecision "" ≠ .spawn c :=
  ⟨(C10_shell_allowlist "rm -rf x").2.1 (by decide),
   ((C10_shell_allowlist "").2.2 (by decide)).2⟩

/-! ## Loop lemmas shared by the tool-execution claims -/

theorem openaiAskAux_succ_tools (behavior : Behavior) (reg : ToolRegistry)
    (n : Nat) (messages : List ChatMessage) (last : Option String)
    (h : (behavior messages).tool_calls ≠ []) :
    openaiAskAux behavior reg (n + 1) messages last
      = ((openaiAskAux behavior reg n (convStep behavior reg messages)
            (behavior messages).content).1,
         (openaiAskAux behavior reg n (convStep behavior reg messages)
            (behavior messages).content).2 + 1) := by
  simp only [openaiAskAux]
  rw [if_neg h]

theorem openaiAskAux_succ_notools (behavior : Behavior) (reg : ToolRegistry)
    (n : Nat) (messages : List ChatMessage) (last : Option String)
    (h : (behavior messages).tool_calls = []) :
    openaiAskAux behavior reg (n + 1) messages last
      = ((behavior messages).content.getD "", 1) := by
  simp only [openaiAskAux]
  rw [if_pos h]

theorem openaiAskAux_always (behavior : Behavior) (reg : ToolRegistry)
    (htools : ∀ m, (behavior m).tool_calls ≠ []) :
    ∀ (n : Nat) (messages : List ChatMessage) (last : Option String),
      openaiAskAux behavior reg (n + 1) messages last
        = ((behavior (convIter behavior reg n messages)).content.getD "", n + 1) := by
  intro n
  induction n with
  | zero =>
    intro messages last
    rw [openaiAskAux_succ_tools behavior reg 0 messages last (htools messages)]
    simp [openaiAskAux, convIter]
  | succ k ih =>
    intro messages last
    rw [openaiAskAux_succ_tools behavior reg (k + 1) messages last (htools messages)]
    rw [ih (convStep behavior reg messages) (behavior messages).content]
    rfl

theorem openaiStreamAux_one_tools (behavior : StreamBehavior) (reg : ToolRegistry)
    (dumps : Args → String) (messages : List ChatMessage)
    (h : (behavior messages).tool_calls ≠ []) :
    openaiStreamAux behavior reg dumps 1 messages
      = ((behavior messages).content_parts
          ++ toolYieldChunks reg dumps (behavior messages).tool_calls
          ++ [maxIterSentinel], 1) := by
  simp only [openaiStreamAux]
  rw [if_neg h]
  simp

theorem openaiStreamAux_succ_tools (behavior : StreamBehavior) (reg : ToolRegistry)
    (dumps : Args → String) (n : Nat) (messages : List ChatMessage)
    (h : (behavior messages).tool_calls ≠ []) :
    openaiStreamAux behavior reg dumps (n + 2) messages
      = ((behavior messages).content_parts
          ++ toolYieldChunks reg dumps (behavior messages).tool_calls
          ++ (openaiStreamAux behavior reg dumps (n + 1)
                (convStepStream behavior reg messages)).1,
         (openaiStreamAux behavior reg dumps (n + 1)
            (convStepStream behavior reg messages)).2 + 1) := by
  simp only [openaiStreamAux]
  rw [if_neg h]
  simp

theorem openaiStreamAux_always (behavior : StreamBehavior) (reg : ToolRegistry)
    (dumps : Args → String) (htools : ∀ m, (behavior m).tool_calls ≠ []) :
    ∀ (n : Nat) (messages : List ChatMessage),
      (∃ pre, (openaiStreamAux behavior reg dumps (n + 1) messages).1
          = pre ++ [maxIterSentinel]) ∧
      (openaiStreamAux behavior reg dumps (n + 1) messages).2 = n + 1 := by
  intro n
  induction n with
  | zero =>
    intro messages
    rw [openaiStreamAux_one_tools behavior reg dumps messages (htools messages)]
    exact ⟨⟨(behavior messages).content_parts
        ++ toolYieldChunks reg dumps (behavior messages).tool_calls, by simp⟩, rfl⟩
  | succ k ih =>
    intro messages
    rw [openaiStreamAux_succ_tools behavior reg dumps k messages (htools messages)]
    rcases ih (convStepStream behavior reg messages) with ⟨⟨pre, hpre⟩, hcount⟩
    refine ⟨⟨(behavior messages).content_parts
        ++ toolYieldChunks reg dumps (behavior messages).tool_calls ++ pre, ?_⟩, ?_⟩
    · simp [hpre]
    · simp [hcount]

/-! ## C4 -/

/-- C4: executing a tool through the registry is total: an unknown name
or a raising tool yields a textual error result rather than an
exception; in the tool loop, each requested call contributes a tool-role
turn carrying exactly that text, and a round with tool calls always
recurses into the next round on the extended conversation. -/
theorem C4_tool_execution_total :
    ∀ (reg : ToolRegistry) (name : String) (args : Args),
      (getTool reg name = none →
        execute_tool reg name args
          = "Error: Tool " ++ sq ++ name ++ sq ++ " not found") ∧
      (∀ t, getTool reg name = some t →
        (∀ e, t.run args = .error e →
          execute_tool reg name args
            = "Error executing tool " ++ sq ++ name ++ sq ++ ": " ++ e) ∧
        (∀ r, t.run args = .ok r → execute_tool reg name args = r)) ∧
      (∀ tcs (tc : ToolCallE), tc ∈ tcs →
        { role := .tool, content := some (execute_tool reg tc.name tc.arguments),
          tool_calls := [], tool_call_id := some tc.id : ChatMessage }
          ∈ toolResultMessages reg tcs) ∧
      (∀ (behavior : Behavior) (n : Nat) (messages : List ChatMessage) (last : Option String),
        (behavior messages).tool_calls ≠ [] →
          openaiAskAux behavior reg (n + 1) messages last
            = ((openaiAskAux behavior reg n
                  (messages ++ [assistantMessage (behavior messages)]
                    ++ toolResultMessages reg (behavior messages).tool_calls)
                  (behavior messages).content).1,
               (openaiAskAux behavior reg n
                  (messages ++ [assistantMessage (behavior messages)]
                    ++ toolResultMessages reg (behavior messages).tool_calls)
                  (behavior messages).content).2 + 1)) := by
  intro reg name args
  refine ⟨?_, ?_, ?_, ?_⟩
  · intro h
    unfold execute_tool
    rw [h]
  · intro t ht
    constructor
    · intro e he
      simp [execute_tool, ht, he]
    · intro r hr
      simp [execute_tool, ht, hr]
  · intro tcs tc hmem
    exact List.mem_map_of_mem _ hmem
  · intro behavior n messages last h
    exact openaiAskAux_succ_tools behavior reg n messages last h

/-- A tool whose execution raises, used to witness C4. -/
def raisingTool : ToolImpl :=
  { name := "toolx", run := fun _ => Except.error "boom" }

/-- A registry holding only the raising tool. -/
def regRaising : ToolRegistry := { tools := [raisingTool] }

/-- Witness for C4: concretely, the raising tool produces the textual
error outcome, and an unknown name the not-found text. -/
theorem C4_witness :
    execute_tool regRaising "toolx" []
      = "Error executing tool " ++ sq ++ "toolx" ++ sq ++ ": " ++ "boom" ∧
    execute_tool regRaising "nosuch" []
      = "Error: Tool " ++ sq ++ "nosuch" ++ sq ++ " not found" :=
  ⟨(((C4_tool_execution_total regRaising "toolx" []).2.1 raisingTool rfl).1 "boom" rfl),
   ((C4_tool_execution_total regRaising "nosuch" []).1 rfl)⟩

/-! ## C2 -/

/-- A model behaviour requesting the raising tool on every round, with
round text `final`. -/
def bAlways : Behavior :=
  fun _ => { content := some "final", tool_calls := [{ id := "id1", name := "toolx", arguments := [] }] }

/-- C2 counterexample: with a model behaviour that requests tool calls
on every round, the blocking `ask` terminates after exactly 5 rounds but
returns the bare last text with no max-iteration sentinel anywhere in
it — the sentinel is yielded only by the streaming variant, so the
claim that both variants return the text together with a sentinel
marker fails. -/
theorem C2_counterexample :
    (openaiAsk bAlways regRaising "p").1 = "final" ∧
    (openaiAsk bAlways regRaising "p").2 = 5 ∧
    ¬ strOccurs maxIterSentinel (openaiAsk bAlways regRaising "p").1 := by
  refine ⟨by decide, by decide, ?_⟩
  intro h
  have h5 : (openaiAsk bAlways regRaising "p").1 = "final" := by decide
  rw [h5] at h
  have hlen := occurs_length_le h
  revert hlen
  decide

/-- C2 (amended): both tool-loop variants terminate within exactly 5
rounds under a model behaviour that requests tools on every round, and
after exactly 1 round when round 1 requests none; on hitting the
ceiling the blocking `ask` returns the last round text with no
sentinel attached, while the streaming `ask_stream` yields the
max-iteration sentinel as its final chunk. -/
theorem C2_loop_termination_amended :
    (∀ (behavior : Behavior) (reg : ToolRegistry) (prompt : String),
      (∀ m, (behavior m).tool_calls ≠ []) →
        openaiAsk behavior reg prompt
          = ((behavior (convIter behavior reg 4 [userMessage prompt])).content.getD "", 5)) ∧
    (∀ (behavior : Behavior) (reg : ToolRegistry) (prompt : String),
      (behavior [userMessage prompt]).tool_calls = [] →
        openaiAsk behavior reg prompt
          = ((behavior [userMessage prompt]).content.getD "", 1)) ∧
    (∀ (sb : StreamBehavior) (reg : ToolRegistry) (dumps : Args → String) (prompt : String),
      (∀ m, (sb m).tool_calls ≠ []) →
        (∃ pre, (openaiAskStream sb reg dumps prompt).1 = pre ++ [maxIterSentinel]) ∧
        (openaiAskStream sb reg dumps prompt).2 = 5) ∧
    (∀ (sb : StreamBehavior) (reg : ToolRegistry) (dumps : Args → String) (prompt : String),
      (sb [userMessage prompt]).tool_calls = [] →
        openaiAskStream sb reg dumps prompt = ((sb [userMessage prompt]).content_parts, 1)) := by
  refine ⟨?_, ?_, ?_, ?_⟩
  · intro behavior reg prompt htools
    exact openaiAskAux_always behavior reg htools 4 [userMessage prompt] none
  · intro behavior reg prompt h
    exact openaiAskAux_succ_notools behavior reg 4 [userMessage prompt] none h
  · intro sb reg dumps prompt htools
    exact openaiStreamAux_always sb reg dumps htools 4 [userMessage prompt]
  · intro sb reg dumps prompt h
    unfold openaiAskStream
    simp only [openaiStreamAux]
    rw [if_pos h]

/-- A streaming behaviour requesting the raising tool on every round. -/
def sbAlways : StreamBehavior :=
  fun _ => { content_parts := ["fin", "al"],
             tool_calls := [{ id := "id1", name := "toolx", arguments := [] }] }

/-- A rendering of structured arguments standing in for `json.dumps`. -/
def dumpsFixture : Args → String := fun _ => "args"

/-- Witness for C2 (amended) at concrete behaviours: 5 rounds with the
sentinel as the last streamed chunk, 5 sentinel-free rounds for the
blocking ask, and 1 round when the model requests no tools. -/
theorem C2_witness :
    openaiAsk bAlways regRaising "p"
      = ((bAlways (convIter bAlways regRaising 4 [userMessage "p"])).content.getD "", 5) ∧
    (∃ pre, (openaiAskStream sbAlways regRaising dumpsFixture "p").1
        = pre ++ [maxIterSentinel]) ∧
    (openaiAskStream sbAlways regRaising dumpsFixture "p").2 = 5 ∧
    openaiAsk (fun _ => { content := some "plain", tool_calls := [] }) regRaising "p"
      = (some "plain" |>.getD "", 1) := by
  refine ⟨?_, ?_, ?_, ?_⟩
  · exact (C2_loop_termination_amended).1 bAlways regRaising "p" (fun m => by
      show [({ id := "id1", name := "toolx", arguments := [] } : ToolCallE)] ≠ []
      decide)
  · exact ((C2_loop_termination_amended).2.2.1 sbAlways regRaising dumpsFixture "p" (fun m => by
      show [({ id := "id1", name := "toolx", arguments := [] } : ToolCallE)] ≠ []
      decide)).1
  · exact ((C2_loop_termination_amended).2.2.1 sbAlways regRaising dumpsFixture "p" (fun m => by
      show [({ id := "id1", name := "toolx", arguments := [] } : ToolCallE)] ≠ []
      decide)).2
  · exact (C2_loop_termination_amended).2.1 (fun _ => { content := some "plain", tool_calls := [] })
      regRaising "p" rfl

/-! ## Prompt-containment lemmas for the sequential strategy -/

theorem pySlice_of_le (r : String) (h : ¬ r.length > 500) : pySlice r 500 = r := by
  unfold pySlice
  have h2 : r.data.length ≤ 500 := Nat.le_of_not_lt h
  rw [List.take_of_length_le h2]

theorem strOccurs_ctxLine (n r : String) : strOccurs (pySlice r 500) (ctxLine n r) := by
  unfold ctxLine
  by_cases h : r.length > 500
  · rw [if_pos h]
    exact strOccurs_append_right _ (strOccurs_append_left _ (strOccurs_self _))
  · rw [if_neg h, pySlice_of_le r h]
    exact strOccurs_append_left _ (strOccurs_self r)

theorem strOccurs_enrich (prompt : String) (hist : List (String × String)) (n r : String)
    (hmem : (n, r) ∈ hist) : strOccurs (pySlice r 500) (enrich prompt hist) := by
  have hne : hist.isEmpty = false := by
    cases hist with
    | nil => cases hmem
    | cons a t => rfl
  unfold enrich
  rw [if_neg (by simp [hne] : ¬ hist.isEmpty = true)]
  have h1 : strOccurs (pySlice r 500) (ctxLine n r) := strOccurs_ctxLine n r
  have h2 : strOccurs (ctxLine n r)
      (joinSep "\n\n" (hist.map (fun h => ctxLine h.1 h.2))) :=
    strOccurs_joinSep "\n\n" _ _ (List.mem_map_of_mem _ hmem)
  exact strOccurs_append_right _ (strOccurs_append_left _ (strOccurs_trans h1 h2))

theorem seqGo_names (prompt : String) :
    ∀ (provs : List (String × AskFn)) (hist : List (String × String)) t,
      seqGo prompt provs hist = .ok t →
      t.map (fun x => x.1) = provs.map (fun p => p.1) := by
  intro provs
  induction provs with
  | nil =>
    intro hist t h
    simp only [seqGo] at h
    injection h with h
    subst h
    rfl
  | cons p rest ih =>
    intro hist t h
    simp only [seqGo] at h
    split at h
    · exact Except.noConfusion h
    · split at h
      · exact Except.noConfusion h
      · rename_i resp hask tl hrec
        injection h with h
        subst h
        simp only [List.map_cons]
        rw [ih _ _ hrec]

theorem seqGo_prompts (prompt : String) :
    ∀ (provs : List (String × AskFn)) (hist : List (String × String)) t,
      seqGo prompt provs hist = .ok t →
      ∀ pre x post, t = pre ++ x :: post →
        x.2.1 = enrich prompt (hist ++ pre.map (fun y => (y.1, y.2.2))) := by
  intro provs
  induction provs with
  | nil =>
    intro hist t h pre x post hsplit
    simp only [seqGo] at h
    injection h with h
    subst h
    cases pre <;> simp at hsplit
  | cons p rest ih =>
    intro hist t h pre x post hsplit
    simp only [seqGo] at h
    split at h
    · exact Except.noConfusion h
    · split at h
      · exact Except.noConfusion h
      · rename_i resp hask tl hrec
        injection h with h
        subst h
        cases pre with
        | nil =>
          simp only [List.nil_append] at hsplit
          injection hsplit with h1 h2
          subst h1
          simp
        | cons y pre2 =>
          simp only [List.cons_append] at hsplit
          injection hsplit with h1 h2
          subst h1
          have := ih _ _ hrec pre2 x post h2
          rw [this]
          simp

/-! ## C5 -/

/-- C5: in the sequential strategy, agent 0 is asked the unmodified
original prompt; every later agent is asked the original prompt
extended with the context block built from all prior responses, which
contains each prior response truncated to its first 500 characters; the
returned value is the ordered (agent, response) projection of the run. -/
theorem C5_sequential_context_prompts :
    ∀ (providers : List (String × AskFn)) (prompt : String) t,
      seqGo prompt providers [] = .ok t →
      (t.map (fun x => x.1) = providers.map (fun p => p.1)) ∧
      (coordinate_sequential providers prompt = .ok (t.map (fun x => (x.1, x.2.2)))) ∧
      (∀ x post, t = x :: post → x.2.1 = prompt) ∧
      (∀ pre x post, t = pre ++ x :: post →
        x.2.1 = enrich prompt (pre.map (fun y => (y.1, y.2.2)))) ∧
      (∀ pre1 y pre2 x post, t = pre1 ++ y :: pre2 ++ x :: post →
        strOccurs (pySlice y.2.2 500) x.2.1) := by
  intro providers prompt t h
  have hprompts := seqGo_prompts prompt providers [] t h
  refine ⟨seqGo_names prompt providers [] t h, ?_, ?_, ?_, ?_⟩
  · unfold coordinate_sequential
    rw [h]
    rfl
  · intro x post hsplit
    have := hprompts [] x post (by simpa using hsplit)
    simpa [enrich] using this
  · intro pre x post hsplit
    simpa using hprompts pre x post hsplit
  · intro pre1 y pre2 x post hsplit
    have hx := hprompts (pre1 ++ y :: pre2) x post (by simpa using hsplit)
    rw [hx]
    simp only [List.nil_append]
    exact strOccurs_enrich prompt _ y.1 y.2.2 (by simp)

/-- A long response (600 copies of `x`), exercising real truncation. -/
def longResp : String := String.mk (List.replicate 600 (Char.ofNat 120))

/-- A provider answering `longResp` regardless of prompt. -/
def okLong : AskFn := fun _ => Except.ok longResp

/-- Witness for C5 at a concrete two-agent run whose first response
exceeds 500 characters: the second prompt contains the truncation. -/
theorem C5_witness :
    ∃ t, seqGo "q" [("A", okLong), ("B", okC)] [] = .ok t ∧
      (∀ x post, t = x :: post → x.2.1 = "q") ∧
      (∀ pre1 y pre2 x post, t = pre1 ++ y :: pre2 ++ x :: post →
        strOccurs (pySlice y.2.2 500) x.2.1) := by
  refine ⟨[("A", enrich "q" [], longResp),
            ("B", enrich "q" [("A", longResp)], "rc")], ?_, ?_, ?_⟩
  · rfl
  · exact fun x post h =>
      ((C5_sequential_context_prompts [("A", okLong), ("B", okC)] "q" _ rfl).2.2.1) x post h
  · exact fun pre1 y pre2 x post h =>
      ((C5_sequential_context_prompts [("A", okLong), ("B", okC)] "q" _ rfl).2.2.2.2)
        pre1 y pre2 x post h

/-! ## Consensus lemmas -/

theorem strOccurs_build_consensus (prompt : String) (responses : List (String × String))
    (p : String × String) (hmem : p ∈ responses) :
    strOccurs p.2 (build_consensus_prompt prompt responses) := by
  have h1 : strOccurs p.2 (consensusEntry p.1 p.2) :=
    strOccurs_append_left _ (strOccurs_self _)
  have h2 : strOccurs (consensusEntry p.1 p.2)
      (joinSep "\n\n" (responses.map (fun q => consensusEntry q.1 q.2))) :=
    strOccurs_joinSep "\n\n" _ _ (List.mem_map_of_mem _ hmem)
  unfold build_consensus_prompt
  exact strOccurs_append_right _ (strOccurs_append_left _ (strOccurs_trans h1 h2))

theorem gatherAsks_length :
    ∀ (asks : List AskFn) (p : String) rs, gatherAsks asks p = .ok rs →
      rs.length = asks.length := by
  intro asks
  induction asks with
  | nil =>
    intro p rs h
    injection h with h
    subst h
    rfl
  | cons a rest ih =>
    intro p rs h
    simp only [gatherAsks] at h
    split at h
    · exact Except.noConfusion h
    · rename_i r hask
      cases hrec : gatherAsks rest p with
      | error e => rw [hrec] at h; exact Except.noConfusion h
      | ok tl =>
        rw [hrec] at h
        injection h with h
        subst h
        simp [ih p tl hrec]

/-! ## C7 -/

/-- C7: a successful consensus run synthesises via the first provider in
iteration order, on a prompt that embeds every individual response in
full; the result bundles the individual (agent, response) map with the
synthesis text. -/
theorem C7_consensus_first_synthesizer_full_responses :
    ∀ (providers : List (String × AskFn)) (prompt : String) (minA : Nat) res,
      coordinate_consensus providers prompt minA = .ok res →
      (∀ p ∈ res.individual_responses,
        strOccurs p.2 (build_consensus_prompt prompt res.individual_responses)) ∧
      (res.individual_responses.map Prod.fst = providers.map Prod.fst) ∧
      (∃ first rest, providers = first :: rest ∧
        first.2 (build_consensus_prompt prompt res.individual_responses)
          = .ok res.consensus) := by
  intro providers prompt minA res h
  unfold coordinate_consensus at h
  split at h
  · exact Except.noConfusion h
  · rename_i rs hg
    split at h
    · exact Except.noConfusion h
    · rename_i first rest2
      dsimp only at h
      split at h
      · exact Except.noConfusion h
      · rename_i c hc
        injection h with h
        subst h
        refine ⟨?_, ?_, ?_⟩
        · intro p hp
          exact strOccurs_build_consensus prompt _ p hp
        · apply List.map_fst_zip
          rw [gatherAsks_length _ prompt rs hg]
          simp
        · exact ⟨first, rest2, rfl, hc⟩

/-- Witness for C7 at a concrete two-provider run. -/
theorem C7_witness :
    ∃ res, coordinate_consensus [("a", okA), ("b", okC)] "q" 2 = .ok res ∧
      (∀ p ∈ res.individual_responses,
        strOccurs p.2 (build_consensus_prompt "q" res.individual_responses)) ∧
      (∃ first rest, ([("a", okA), ("b", okC)] : List (String × AskFn)) = first :: rest ∧
        first.2 (build_consensus_prompt "q" res.individual_responses)
          = .ok res.consensus) := by
  refine ⟨_, rfl, ?_, ?_⟩
  · exact (C7_consensus_first_synthesizer_full_responses
      [("a", okA), ("b", okC)] "q" 2 _ rfl).1
  · exact (C7_consensus_first_synthesizer_full_responses
      [("a", okA), ("b", okC)] "q" 2 _ rfl).2.2

/-! ## Debate lemmas -/

theorem debateRoundGo_prompts (prompt : String) (k : Nat) (prev : List (String × String)) :
    ∀ (ps : List (String × AskFn)) r, debateRoundGo prompt k prev ps = .ok r →
      ∀ x ∈ r, x.2.1 = if k > 0 then debatePromptFor prompt prev x.1 else prompt := by
  intro ps
  induction ps with
  | nil =>
    intro r h x hx
    injection h with h
    subst h
    cases hx
  | cons p rest ih =>
    intro r h x hx
    simp only [debateRoundGo] at h
    split at h
    · exact Except.noConfusion h
    · rename_i resp hask
      cases hrec : debateRoundGo prompt k prev rest with
      | error e => rw [hrec] at h; exact Except.noConfusion h
      | ok tl =>
        rw [hrec] at h
        injection h with h
        subst h
        rcases List.mem_cons.mp hx with rfl | hx2
        · rfl
        · exact ih tl hrec x hx2

theorem debateGoRounds_head (ps : List (String × AskFn)) (prompt : String) :
    ∀ (f k : Nat) (prev : List (String × String)) rh rest,
      debateGoRounds ps prompt f k prev = .ok (rh :: rest) →
      debateRoundGo prompt k prev ps = .ok rh := by
  intro f k prev rh rest h
  cases f with
  | zero =>
    injection h with h
    exact List.noConfusion h
  | succ f2 =>
    simp only [debateGoRounds] at h
    split at h
    · exact Except.noConfusion h
    · rename_i r hr
      cases hrec : debateGoRounds ps prompt f2 (k + 1) (r.map (fun x => (x.1, x.2.2))) with
      | error e => rw [hrec] at h; exact Except.noConfusion h
      | ok tl =>
        rw [hrec] at h
        injection h with h
        injection h with h1 h2
        subst h1
        exact hr

theorem debateGoRounds_chain (ps : List (String × AskFn)) (prompt : String) :
    ∀ (f k : Nat) (prev : List (String × String)) t,
      debateGoRounds ps prompt f k prev = .ok t →
      ∀ pre rPrev rCur post, t = pre ++ rPrev :: rCur :: post →
        ∀ x ∈ rCur,
          x.2.1 = debatePromptFor prompt (rPrev.map (fun y => (y.1, y.2.2))) x.1 := by
  intro f
  induction f with
  | zero =>
    intro k prev t h pre rPrev rCur post hsplit
    injection h with h
    subst h
    intro x hx
    cases pre <;> simp at hsplit
  | succ f2 ih =>
    intro k prev t h pre rPrev rCur post hsplit
    simp only [debateGoRounds] at h
    split at h
    · exact Except.noConfusion h
    · rename_i r hr
      cases hrec : debateGoRounds ps prompt f2 (k + 1) (r.map (fun x => (x.1, x.2.2))) with
      | error e => rw [hrec] at h; exact Except.noConfusion h
      | ok tl =>
        rw [hrec] at h
        injection h with h
        subst h
        cases pre with
        | nil =>
          simp only [List.nil_append] at hsplit
          injection hsplit with h1 h2
          subst h1
          intro x hx
          have hhead : debateRoundGo prompt (k + 1) (r.map (fun y => (y.1, y.2.2))) ps
              = .ok rCur := by
            apply debateGoRounds_head ps prompt f2 (k + 1)
              (r.map (fun y => (y.1, y.2.2))) rCur post
            rw [hrec, h2]
          have := debateRoundGo_prompts prompt (k + 1)
            (r.map (fun y => (y.1, y.2.2))) ps rCur hhead x hx
          simpa using this
        | cons y pre2 =>
          simp only [List.cons_append] at hsplit
          injection hsplit with h1 h2
          exact ih (k + 1) _ tl hrec pre2 rPrev rCur post h2

/-! ## C6 -/

/-- C6: in the debate strategy every round 0 prompt is the bare prompt;
in any later round each agent is prompted with the context built from
the previous round, whose entries are exactly the other agents'
entries — every other agent's entry is kept, the agent's own entry is
never among them — and each kept entry's response text is embedded in
the prompt. -/
theorem C6_debate_excludes_own_response :
    ∀ (providers : List (String × AskFn)) (prompt : String) (rounds : Nat) t,
      coordinate_debate providers prompt rounds = .ok t →
      (∀ r0 rest, t = r0 :: rest → ∀ x ∈ r0, x.2.1 = prompt) ∧
      (∀ pre rPrev rCur post, t = pre ++ rPrev :: rCur :: post →
        ∀ x ∈ rCur,
          x.2.1 = debatePromptFor prompt (rPrev.map (fun y => (y.1, y.2.2))) x.1) ∧
      (∀ (prev : List (String × String)) me y, y ∈ debateCtxEntries prev me → y.1 ≠ me) ∧
      (∀ (prev : List (String × String)) me y, y ∈ prev → y.1 ≠ me →
        y ∈ debateCtxEntries prev me) ∧
      (∀ (p2 : String) (prev : List (String × String)) me y, y ∈ debateCtxEntries prev me →
        strOccurs y.2 (debatePromptFor p2 prev me)) := by
  intro providers prompt rounds t h
  refine ⟨?_, ?_, ?_, ?_, ?_⟩
  · intro r0 rest hsplit x hx
    have hhead : debateRoundGo prompt 0 [] providers = .ok r0 := by
      apply debateGoRounds_head providers prompt rounds 0 [] r0 rest
      rw [← hsplit]
      exact h
    have := debateRoundGo_prompts prompt 0 [] providers r0 hhead x hx
    simpa using this
  · exact debateGoRounds_chain providers prompt rounds 0 [] t h
  · intro prev me y hy
    simpa using (List.mem_filter.mp hy).2
  · intro prev me y hy hne
    exact List.mem_filter.mpr ⟨hy, by simpa using hne⟩
  · intro p2 prev me y hy
    have h1 : strOccurs y.2
        ("[" ++ y.1 ++ sq ++ "s previous response]: " ++ y.2) :=
      strOccurs_append_left _ (strOccurs_self _)
    have h2 : strOccurs ("[" ++ y.1 ++ sq ++ "s previous response]: " ++ y.2)
        (joinSep "\n\n"
          ((debateCtxEntries prev me).map
            (fun x => "[" ++ x.1 ++ sq ++ "s previous response]: " ++ x.2))) :=
      strOccurs_joinSep "\n\n" _ _ (List.mem_map_of_mem _ hy)
    unfold debatePromptFor
    exact strOccurs_append_right _ (strOccurs_append_left _ (strOccurs_trans h1 h2))

/-- Witness for C6 at a concrete two-agent, two-round debate. -/
theorem C6_witness :
    ∃ t, coordinate_debate [("a", okA), ("b", okC)] "q" 2 = .ok t ∧
      (∀ r0 rest, t = r0 :: rest → ∀ x ∈ r0, x.2.1 = "q") ∧
      (∀ pre rPrev rCur post, t = pre ++ rPrev :: rCur :: post →
        ∀ x ∈ rCur,
          x.2.1 = debatePromptFor "q" (rPrev.map (fun y => (y.1, y.2.2))) x.1) := by
  refine ⟨_, rfl, ?_, ?_⟩
  · exact (C6_debate_excludes_own_response [("a", okA), ("b", okC)] "q" 2 _ rfl).1
  · exact (C6_debate_excludes_own_response [("a", okA), ("b", okC)] "q" 2 _ rfl).2.1

/-! ## Error-propagation lemmas -/

theorem gatherAsks_error (f : AskFn) (asks2 : List AskFn) (p e : String)
    (hf : f p = Except.error e) :
    ∀ asks1 : List AskFn, (∀ a ∈ asks1, ∃ r, a p = Except.ok r) →
      gatherAsks (asks1 ++ f :: asks2) p = .error e := by
  intro asks1
  induction asks1 with
  | nil =>
    intro _
    simp [gatherAsks, hf]
  | cons a rest ih =>
    intro hall
    obtain ⟨r, hr⟩ := hall a (List.mem_cons_self a rest)
    have hrec := ih (fun b hb => hall b (List.mem_cons_of_mem a hb))
    simp [gatherAsks, hr, hrec, Except.map]

theorem debateRoundGo_error (nb : String) (fB : AskFn) (ps2 : List (String × AskFn))
    (prompt e : String) (prev : List (String × String)) (hf : fB prompt = Except.error e) :
    ∀ ps1 : List (String × AskFn), (∀ q ∈ ps1, ∃ r, q.2 prompt = Except.ok r) →
      debateRoundGo prompt 0 prev (ps1 ++ (nb, fB) :: ps2) = .error e := by
  intro ps1
  induction ps1 with
  | nil =>
    intro _
    simp [debateRoundGo, hf]
  | cons q rest ih =>
    intro hall
    obtain ⟨r, hr⟩ := hall q (List.mem_cons_self q rest)
    have hrec := ih (fun b hb => hall b (List.mem_cons_of_mem q hb))
    simp [debateRoundGo, hr, hrec, Except.map]

/-! ## C3 -/

/-- C3 counterexample: a single raising provider makes the whole
consensus call and the whole debate call raise (as the leftmost
propagated exception), while the Parallel strategy isolates the same
failure to that agent's slot — so failure isolation does not hold in
the fan-out phase of Consensus nor in Debate rounds. -/
theorem C3_counterexample :
    coordinate_consensus [("a", okA), ("b", errB)] "q" 2 = .error "boom" ∧
    coordinate_debate [("a", okA), ("b", errB)] "q" 2 = .error "boom" ∧
    ask_parallel [("a", okA), ("b", errB)] "q" = [("a", "ra"), ("b", "ERROR: boom")] := by
  refine ⟨rfl, rfl, rfl⟩

/-- C3 (amended): a provider exception is isolated to that agent's slot
only in the strategies built on the fan-out wrapper (`_ask_parallel`):
there the failing agent's entry is the error-tagged string and every
other agent's entry is untouched; zero enabled agents is the fatal
error of the coordinator entry point; but in the fan-out phase of
Consensus and in each Debate round a provider exception propagates and
the whole strategy call raises. -/
theorem C3_failure_isolation_parallel_only :
    (∀ (providers : List (String × AskFn)) (prompt : String) pre pr post e,
      providers = pre ++ pr :: post → pr.2 prompt = Except.error e →
        ask_parallel providers prompt
          = ask_parallel pre prompt ++ (pr.1, "ERROR: " ++ e) :: ask_parallel post prompt) ∧
    (∀ prompt strategy planner,
      ask_tri [] prompt strategy planner
        = .error ("No providers enabled. Run " ++ sq ++ "aitril init" ++ sq
            ++ " to configure providers.")) ∧
    (∀ pre (nb : String) (fB : AskFn) post prompt e minA,
      (∀ q ∈ pre, ∃ r, q.2 prompt = Except.ok r) → fB prompt = Except.error e →
        coordinate_consensus (pre ++ (nb, fB) :: post) prompt minA = .error e) ∧
    (∀ pre (nb : String) (fB : AskFn) post prompt e rounds,
      (∀ q ∈ pre, ∃ r, q.2 prompt = Except.ok r) → fB prompt = Except.error e →
        coordinate_debate (pre ++ (nb, fB) :: post) prompt (rounds + 1) = .error e) := by
  refine ⟨?_, ?_, ?_, ?_⟩
  · intro providers prompt pre pr post e hsplit hf
    subst hsplit
    simp [ask_parallel, tagOutcome, hf]
  · intro prompt strategy planner
    rfl
  · intro pre nb fB post prompt e minA hall hf
    have hg : gatherAsks ((pre ++ (nb, fB) :: post).map Prod.snd) prompt = .error e := by
      have hmap : (pre ++ (nb, fB) :: post).map Prod.snd
          = pre.map Prod.snd ++ fB :: post.map Prod.snd := by simp
      rw [hmap]
      apply gatherAsks_error fB _ prompt e hf
      intro a ha
      obtain ⟨q, hq, rfl⟩ := List.mem_map.mp ha
      exact hall q hq
    unfold coordinate_consensus
    rw [hg]
  · intro pre nb fB post prompt e rounds hall hf
    have hround : debateRoundGo prompt 0 [] (pre ++ (nb, fB) :: post) = .error e :=
      debateRoundGo_error nb fB post prompt e [] hf pre hall
    unfold coordinate_debate
    simp only [debateGoRounds]
    rw [hround]

/-- Witness for C3 (amended) at concrete inputs: isolation in Parallel,
fatal zero-agent entry point, and propagation in Consensus and Debate. -/
theorem C3_witness :
    ask_parallel [("a", okA), ("b", errB)] "x"
      = ask_parallel [("a", okA)] "x" ++ ("b", "ERROR: " ++ "boom") :: ask_parallel [] "x" ∧
    ask_tri [] "x" "parallel" "none"
      = .error ("No providers enabled. Run " ++ sq ++ "aitril init" ++ sq
          ++ " to configure providers.") ∧
    coordinate_consensus [("a", okA), ("b", errB)] "x" 2 = .error "boom" ∧
    coordinate_debate [("a", okA), ("b", errB)] "x" 2 = .error "boom" := by
  refine ⟨?_, ?_, ?_, ?_⟩
  · exact C3_failure_isolation_parallel_only.1 [("a", okA), ("b", errB)] "x"
      [("a", okA)] ("b", errB) [] "boom" rfl rfl
  · exact C3_failure_isolation_parallel_only.2.1 "x" "parallel" "none"
  · exact C3_failure_isolation_parallel_only.2.2.1 [("a", okA)] "b" errB [] "x" "boom" 2
      (fun q hq => by
        rcases List.mem_singleton.mp hq with rfl
        exact ⟨"ra", rfl⟩) rfl
  · exact C3_failure_isolation_parallel_only.2.2.2 [("a", okA)] "b" errB [] "x" "boom" 1
      (fun q hq => by
        rcases List.mem_singleton.mp hq with rfl
        exact ⟨"ra", rfl⟩) rfl

/-! ## Trace lemmas for the concurrency-shape claim -/

theorem foldr_max_le (l : List Nat) (b : Nat) (h : ∀ x ∈ l, x ≤ b) :
    l.foldr Nat.max 0 ≤ b := by
  induction l with
  | nil => exact Nat.zero_le b
  | cons a t ih =>
    exact Nat.max_le.mpr
      ⟨h a (List.mem_cons_self a t),
       ih (fun x hx => h x (List.mem_cons_of_mem a hx))⟩

theorem le_foldr_max (l : List Nat) (x : Nat) (h : x ∈ l) :
    x ≤ l.foldr Nat.max 0 := by
  induction l with
  | nil => cases h
  | cons a t ih =>
    rcases List.mem_cons.mp h with rfl | h2
    · exact Nat.le_max_left _ _
    · exact le_trans (ih h2) (Nat.le_max_right _ _)

theorem maxOutstanding_callret_blocks {α : Type} (g pf rf : α → String) :
    ∀ ps : List α,
      maxOutstanding (ps.flatMap (fun a =>
        [CallEvent.call (g a) (pf a), CallEvent.ret (g a) (rf a)])) ≤ 1 := by
  intro ps
  induction ps with
  | nil => exact Nat.zero_le 1
  | cons a t ih =>
    have hcons : (a :: t).flatMap (fun a =>
        [CallEvent.call (g a) (pf a), CallEvent.ret (g a) (rf a)])
        = CallEvent.call (g a) (pf a) :: CallEvent.ret (g a) (rf a)
          :: t.flatMap (fun a =>
            [CallEvent.call (g a) (pf a), CallEvent.ret (g a) (rf a)]) := rfl
    rw [maxOutstanding, hcons]
    simp only [outstandingSteps, Nat.zero_add, Nat.sub_self, List.foldr_cons]
    refine Nat.max_le.mpr ⟨le_refl 1, Nat.max_le.mpr ⟨Nat.zero_le 1, ?_⟩⟩
    simpa [maxOutstanding] using ih

/-- Net in-flight count after a trace, starting from `cur`. -/
def netAfter (t : List CallEvent) (cur : Nat) : Nat :=
  (outstandingSteps t cur).getLastD cur

theorem netAfter_cons (e : CallEvent) (t : List CallEvent) (cur : Nat) :
    netAfter (e :: t) cur
      = netAfter t (match e with | .call _ _ => cur + 1 | .ret _ _ => cur - 1) := by
  unfold netAfter
  simp only [outstandingSteps]
  exact List.getLastD_cons ..

theorem outstandingSteps_append :
    ∀ (t1 t2 : List CallEvent) (cur : Nat),
      outstandingSteps (t1 ++ t2) cur
        = outstandingSteps t1 cur ++ outstandingSteps t2 (netAfter t1 cur) := by
  intro t1
  induction t1 with
  | nil => intro t2 cur; rfl
  | cons e t ih =>
    intro t2 cur
    rw [netAfter_cons]
    cases e with
    | call n pr =>
      simp only [List.cons_append, outstandingSteps, List.append_eq]
      rw [ih]
    | ret n r =>
      simp only [List.cons_append, outstandingSteps, List.append_eq]
      rw [ih]

theorem outstandingSteps_calls (prompt : String) :
    ∀ (ps : List (String × (String → String))) (cur : Nat),
      outstandingSteps (ps.map (fun pr => CallEvent.call pr.1 prompt)) cur
        = (List.range ps.length).map (fun i => cur + 1 + i) := by
  intro ps
  induction ps with
  | nil => intro cur; rfl
  | cons p t ih =>
    intro cur
    simp only [List.map_cons, outstandingSteps, List.length_cons,
      List.range_succ_eq_map, List.map_map]
    rw [ih (cur + 1)]
    have hf : ((fun i => cur + 1 + i) ∘ Nat.succ) = (fun i => cur + 1 + 1 + i) := by
      funext i
      simp only [Function.comp]
      omega
    rw [hf]

theorem netAfter_calls (prompt : String) :
    ∀ (ps : List (String × (String → String))) (cur : Nat),
      netAfter (ps.map (fun pr => CallEvent.call pr.1 prompt)) cur = cur + ps.length := by
  intro ps
  induction ps with
  | nil => intro cur; rfl
  | cons p t ih =>
    intro cur
    rw [List.map_cons, netAfter_cons, ih (cur + 1)]
    simp only [List.length_cons]
    omega

theorem outstandingSteps_rets_le :
    ∀ (t : List CallEvent) (cur : Nat),
      (∀ e ∈ t, ∃ n r, e = CallEvent.ret n r) →
      ∀ x ∈ outstandingSteps t cur, x ≤ cur := by
  intro t
  induction t with
  | nil =>
    intro cur _ x hx
    cases hx
  | cons e rest ih =>
    intro cur hret x hx
    obtain ⟨n, r, rfl⟩ := hret e (List.mem_cons_self e rest)
    simp only [outstandingSteps] at hx
    rcases List.mem_cons.mp hx with rfl | hx2
    · exact Nat.sub_le cur 1
    · exact le_trans
        (ih (cur - 1) (fun e2 he2 => hret e2 (List.mem_cons_of_mem _ he2)) x hx2)
        (Nat.sub_le cur 1)

theorem maxOutstanding_parallelTrace
    (providers : List (String × (String → String))) (prompt : String) :
    maxOutstanding (parallelTrace providers prompt) = providers.length := by
  cases hps : providers with
  | nil => rfl
  | cons p0 rest =>
    rw [← hps]
    have hn : 0 < providers.length := by rw [hps]; simp
    unfold maxOutstanding parallelTrace
    rw [outstandingSteps_append, outstandingSteps_calls prompt providers 0,
      netAfter_calls prompt providers 0]
    apply Nat.le_antisymm
    · apply foldr_max_le
      intro x hx
      rcases List.mem_append.mp hx with hx1 | hx2
      · obtain ⟨i, hi, rfl⟩ := List.mem_map.mp hx1
        have := List.mem_range.mp hi
        omega
      · have := outstandingSteps_rets_le
          (providers.map (fun pr => CallEvent.ret pr.1 (pr.2 prompt)))
          (0 + providers.length)
          (fun e he => by
            obtain ⟨pr, _, rfl⟩ := List.mem_map.mp he
            exact ⟨pr.1, pr.2 prompt, rfl⟩) x hx2
        omega
    · apply le_foldr_max
      apply List.mem_append_left
      apply List.mem_map.mpr
      refine ⟨providers.length - 1, List.mem_range.mpr (by omega), by omega⟩

/-! ## C9 -/

/-- C9 counterexample: with two concrete agents, the specialist strategy
and a debate round never have more than one agent call in flight (the
second agent is called only after the first returns), whereas the
fan-out executor has both agents in flight at once — so the claim that
these loops run one concurrent task per agent via fan-out fails. -/
theorem C9_counterexample :
    maxOutstanding (specialistTrace [("a", fun _ => "ra"), ("b", fun _ => "rb")] [] "q") = 1 ∧
    maxOutstanding (debateRoundTrace [("a", fun _ => "ra"), ("b", fun _ => "rb")] "q" 1
      [("a", "x"), ("b", "y")]) = 1 ∧
    maxOutstanding (parallelTrace [("a", fun _ => "ra"), ("b", fun _ => "rb")] "q") = 2 ∧
    (1 : Nat) ≠ 2 := by
  refine ⟨by decide, by decide, by decide, by decide⟩

/-- C9 (amended): within the Specialist strategy and within any single
Debate round the agent calls are strictly serialized — at most one call
is in flight at any time, because the loop awaits each agent before
starting the next — while the fan-out executor used by Parallel has
exactly one concurrent in-flight call per enabled agent; only across
rounds is debate execution sequential by design. -/
theorem C9_specialist_debate_serialized :
    (∀ (providers : List (String × (String → String))) roles prompt,
      maxOutstanding (specialistTrace providers roles prompt) ≤ 1) ∧
    (∀ (providers : List (String × (String → String))) prompt roundNum prev,
      maxOutstanding (debateRoundTrace providers prompt roundNum prev) ≤ 1) ∧
    (∀ (providers : List (String × (String → String))) prompt,
      maxOutstanding (parallelTrace providers prompt) = providers.length) := by
  refine ⟨?_, ?_, ?_⟩
  · intro providers roles prompt
    exact maxOutstanding_callret_blocks
      (fun pr => pr.1)
      (fun pr => rolePrompt (lookupRole roles pr.1) prompt)
      (fun pr => pr.2 (rolePrompt (lookupRole roles pr.1) prompt))
      providers
  · intro providers prompt roundNum prev
    exact maxOutstanding_callret_blocks
      (fun pr => pr.1)
      (fun pr => if roundNum > 0 then debatePromptFor prompt prev pr.1 else prompt)
      (fun pr => pr.2 (if roundNum > 0 then debatePromptFor prompt prev pr.1 else prompt))
      providers
  · intro providers prompt
    exact maxOutstanding_parallelTrace providers prompt

end Aitril
